import Mathlib

/-!
Verification of the node-assignment engine in `wimms/sql.py` (class `SQLMetadata`).

The storage tables (`user_nodes`, `nodes`, `metadata`) are embedded as lists of rows
inside a `DB` record; each method of `SQLMetadata` becomes a function from `DB` to a
result (paired with the new `DB` when the method writes).  SQL integers are `Int`,
the auto-increment uid produced by the storage engine (`res.lastrowid`) is a `nextUid`
counter on the state.  Exceptions are modelled with `Except`: `BackendError` raised by
the facade and the raw storage-engine integrity error are the two error shapes that can
escape, and `_safe_execute`'s catch clause is the function `safe_execute` below.
-/

set_option autoImplicit false

deriving instance DecidableEq for Except

namespace Wimms

/-- A row of the `nodes` table: per-service node with load/capacity bookkeeping.
Fields follow `WRITEABLE_FIELDS` in sql.py plus the identity `(service, node)`. -/
structure Node where
  service : String
  node : String
  available : Int
  current_load : Int
  capacity : Int
  downed : Int
  backoff : Int
  deriving DecidableEq

/-- A row of the `user_nodes` table, as read by the `_GET` query and written by
`_INSERT` in sql.py: identity `(email, service)`, with the assigned node, the
storage-assigned `uid` and the numeric `tos_signed` flag. -/
structure UserNode where
  service : String
  email : String
  node : String
  uid : Nat
  tos_signed : Int
  deriving DecidableEq

/-- A row of the `metadata` table: identity `(service, name)` with a string value. -/
structure MetadataRow where
  service : String
  name : String
  value : String
  deriving DecidableEq

/-- The durable storage state: the three tables touched by `SQLMetadata`, plus the
auto-increment counter the engine uses to produce `res.lastrowid` on insert. -/
structure DB where
  user_nodes : List UserNode
  nodes : List Node
  metadata : List MetadataRow
  nextUid : Nat
  deriving DecidableEq

/-- The two exception shapes that can escape `SQLMetadata` methods:
`backendError` is `mozsvc.exceptions.BackendError` (raised by the facade itself, and
by `_safe_execute` for connectivity failures); `integrityError` is a raw
storage-engine constraint-violation exception (`sqlalchemy.exc.IntegrityError`),
which `_safe_execute`'s `except (OperationalError, TimeoutError)` clause does not
catch, so it propagates with its engine type intact. -/
inductive DBError where
  | backendError (msg : String)
  | integrityError (msg : String)
  deriving DecidableEq

/-- Outcome of `engine.execute(...)` as seen by `_safe_execute`: success, the two
connectivity failures its `except` clause lists, or a constraint violation. -/
inductive EngineOutcome (α : Type) where
  | ok (r : α)
  | operationalError (msg : String)
  | timeoutError (msg : String)
  | integrityError (msg : String)
  deriving DecidableEq

/-- `_safe_execute` (sql.py 110-129): runs the engine call and converts
`OperationalError` and `TimeoutError` into `BackendError(str(exc))`.  Any other
engine exception, in particular an integrity error, is not caught and propagates
as the raw engine type. -/
def safe_execute {α : Type} : EngineOutcome α → Except DBError α
  | .ok r => .ok r
  | .operationalError msg => .error (.backendError msg)
  | .timeoutError msg => .error (.backendError msg)
  | .integrityError msg => .error (.integrityError msg)

/-- `get_metadata(service, name)` with a non-None `name` (sql.py 243-257): select the
rows matching `service` and `name`, `fetchone()`, and return its `value`, or `None`
when there is no such row. -/
def get_metadata (db : DB) (service name : String) : Option String :=
  (db.metadata.find? (fun r => r.service == service && r.name == name)).map
    (fun r => r.value)

/-- Modelled from the spec: the schema modules `wimms/schemas.py` and
`wimms/sqliteschemas.py` referenced by sql.py are not under src/.  Per the spec's
storage contract the engine "supports row-level unique constraints (used for
`(email, service)` and `(service, name)` identities)" and "surfaces
connectivity/timeout failures distinguishably from constraint-violation failures".
So executing `_INSERT_METADATA` on an existing `(service, name)` key fails with a
constraint-violation (integrity) outcome, and on a fresh key appends the row. -/
def metadata_insert (db : DB) (service name value : String) : EngineOutcome DB :=
  if db.metadata.any (fun r => r.service == service && r.name == name) then
    .integrityError "columns service, name are not unique"
  else
    .ok { db with metadata := db.metadata ++ [⟨service, name, value⟩] }

/-- `set_metadata` (sql.py 238-241): executes `_INSERT_METADATA` through
`_safe_execute`. -/
def set_metadata (db : DB) (service name value : String) : Except DBError DB :=
  safe_execute (metadata_insert db service name value)

/-- `update_metadata` (sql.py 261-264): executes `_UPDATE_METADATA`, an UPDATE whose
WHERE clause is `name = :name and service = :service`; rows that do not match are
left alone, and the statement succeeds whether or not any row matched. -/
def update_metadata (db : DB) (service name value : String) : DB :=
  { db with
    metadata := db.metadata.map (fun r =>
      if r.name == name && r.service == service then { r with value := value } else r) }

/-- `get_node` (sql.py 134-164): run `_GET`, `fetchone()`; when there is no row or the
row has `tos_signed == 1` the terms-of-service metadata value is surfaced, otherwise
the ToS slot is `None`; the first two components are the row's uid and node (or
`None, None` when absent). -/
def get_node (db : DB) (email service : String) :
    Option Nat × Option String × Option String :=
  match db.user_nodes.find? (fun u => u.email == email && u.service == service) with
  | none => (none, none, get_metadata db service "terms-of-service")
  | some one =>
    if one.tos_signed == 1 then
      (some one.uid, some one.node, get_metadata db service "terms-of-service")
    else
      (some one.uid, some one.node, none)

/-- The WHERE clause of the selection query in `get_best_node` (sql.py 200-203):
`service = :service`, `available > 0`, `capacity > current_load`, `downed == 0`. -/
def eligible (service : String) (n : Node) : Bool :=
  n.service == service && decide (0 < n.available) &&
    decide (n.current_load < n.capacity) && n.downed == 0

/-- The ordering key `current_load / capacity` of the selection query
(sql.py 206-207), as exact rational division. -/
def load_factor (n : Node) : Rat :=
  (n.current_load : Rat) / (n.capacity : Rat)

/-- `order by (current_load / capacity) asc limit 1` over the already-filtered rows:
the first row attaining the minimal ordering key (ties resolve to storage order,
the accepted non-determinism of the spec). -/
def selectBest : List Node → Option Node
  | [] => none
  | x :: xs =>
    some (xs.foldl (fun best n => if load_factor n < load_factor best then n else best) x)

/-- The slot-claim UPDATE inside `get_best_node` (sql.py 218-225): WHERE
`service = :service and node = :node`, SET `available = available - 1`,
`current_load = current_load + 1`.  The WHERE clause names only the identity
columns; it does not repeat the eligibility predicate of the selection query. -/
def claim_slot_update (db : DB) (service nodeAddr : String) : DB :=
  { db with
    nodes := db.nodes.map (fun n =>
      if n.service == service && n.node == nodeAddr then
        { n with available := n.available - 1, current_load := n.current_load + 1 }
      else n) }

/-- `get_best_node` (sql.py 194-227): select the eligible row with the least
`current_load / capacity`; raise `BackendError('unable to get a node')` when none
exists; otherwise run the slot-claim UPDATE for the selected address and return it. -/
def get_best_node (db : DB) (service : String) : Except DBError (String × DB) :=
  match selectBest (db.nodes.filter (eligible service)) with
  | none => .error (.backendError "unable to get a node")
  | some one => .ok (one.node, claim_slot_update db service one.node)

/-- `allocate_node` (sql.py 166-181): first `get_node`; if the pair already has a
uid/node, raise `BackendError("Node already assigned")`; otherwise `get_best_node`,
then `_INSERT` a `user_nodes` row with `tos_signed = 1` and return
`(res.lastrowid, node)`. -/
def allocate_node (db : DB) (email service : String) :
    Except DBError (Nat × String × DB) :=
  let (uid, node, _) := get_node db email service
  if uid == none && node == none then
    match get_best_node db service with
    | .error e => .error e
    | .ok (best, db1) =>
      .ok (db1.nextUid, best,
        { db1 with
          user_nodes := db1.user_nodes ++ [⟨service, email, best, db1.nextUid, 1⟩],
          nextUid := db1.nextUid + 1 })
  else
    .error (.backendError "Node already assigned")

/-- `set_tos_flag` (sql.py 272-289): UPDATE `user_nodes` SET `tos_signed = value`
WHERE `service = :service`, additionally restricted to one email when one is
supplied. -/
def set_tos_flag (db : DB) (service : String) (value : Int) (email : Option String) :
    DB :=
  { db with
    user_nodes := db.user_nodes.map (fun u =>
      if u.service == service &&
          (match email with | none => true | some e => u.email == e) then
        { u with tos_signed := value }
      else u) }

/-- `set_tos` (sql.py 266-270): `update_metadata(service, 'terms-of-service', value)`
then `set_tos_flag(service, 0)` for every user of the service. -/
def set_tos (db : DB) (service value : String) : DB :=
  set_tos_flag (update_metadata db service "terms-of-service" value) service 0 none

/-- Discriminates whether a method outcome is a facade-level `BackendError`, the one
taxonomy error type the module raises itself. -/
def isBackendError {α : Type} : Except DBError α → Bool
  | .error (.backendError _) => true
  | _ => false

/-! Concrete states used to exercise the model. -/

/-- A node of service `s1` with no free slot and full load: ineligible. -/
def c1_node : Node := ⟨"s1", "n1", 0, 5, 5, 0, 0⟩

/-- A registry holding only the ineligible node `c1_node`. -/
def c1_db : DB := ⟨[], [c1_node], [], 1⟩

/-- One user of service `s1` whose stored flag is `0`, the value `get_node` reads as
"ToS signed", with a current terms-of-service metadata row. -/
def c2_db : DB :=
  ⟨[⟨"s1", "u@x", "n1", 1, 0⟩], [], [⟨"s1", "terms-of-service", "http://old"⟩], 2⟩

/-- An empty assignment table over one eligible `s1` node with 3 free slots. -/
def c3_db : DB := ⟨[], [⟨"s1", "n1", 3, 0, 5, 0, 0⟩], [], 1⟩

/-- The state produced by a first successful allocation on `c3_db`. -/
def c3_db1 : DB :=
  ⟨[⟨"s1", "u@x", "n1", 1, 1⟩], [⟨"s1", "n1", 2, 1, 5, 0, 0⟩], [], 2⟩

/-- A node at exactly full load (`current_load = capacity`). -/
def c4_full : Node := ⟨"s1", "nf", 5, 5, 5, 0, 0⟩

/-- An eligible node of the same service. -/
def c4_ok : Node := ⟨"s1", "ng", 3, 1, 5, 0, 0⟩

/-- A registry holding a full node and an eligible node of service `s1`. -/
def c4_db : DB := ⟨[], [c4_full, c4_ok], [], 1⟩

/-- Node A of the spec scenario: load 2 of capacity 10. -/
def c5_nodeA : Node := ⟨"sync", "https://a", 5, 2, 10, 0, 0⟩

/-- Node B of the spec scenario: load 8 of capacity 10. -/
def c5_nodeB : Node := ⟨"sync", "https://b", 5, 8, 10, 0, 0⟩

/-- The spec scenario registry for service `sync`, with no assignment yet. -/
def c5_db : DB := ⟨[], [c5_nodeA, c5_nodeB], [], 1⟩

/-- A metadata store that already holds a row for `("s1", "x")`. -/
def c6_db : DB := ⟨[], [], [⟨"s1", "x", "1"⟩], 1⟩

/-- A state with no metadata rows at all. -/
def c7_db : DB := ⟨[], [], [], 1⟩

/-- A metadata store with one row whose name differs from `"x"`. -/
def c8_db : DB := ⟨[], [], [⟨"s1", "y", "v"⟩], 1⟩

/-- One eligible node and a terms-of-service row for service `s2`; uid counter at 7. -/
def c9_db : DB :=
  ⟨[], [⟨"s2", "n2", 2, 0, 4, 0, 0⟩], [⟨"s2", "terms-of-service", "http://tos"⟩], 7⟩

/-- A state with no nodes registered at all. -/
def c10_db : DB := ⟨[], [], [], 1⟩

/-- A state in which `("c@d", "s3")` already holds an assignment. -/
def c10_db2 : DB := ⟨[⟨"s3", "c@d", "n3", 4, 0⟩], [], [], 5⟩

/-! Helper lemmas about list scans used by the queries. -/

/-- Appending one row to a table in which `find?` fails makes `find?` return that row,
provided it satisfies the predicate. -/
theorem find?_append_of_none {α : Type} (p : α → Bool) (l : List α) (a : α)
    (h : l.find? p = none) (ha : p a = true) : (l ++ [a]).find? p = some a := by
  induction l with
  | nil => simp [List.find?, ha]
  | cons x xs ih =>
    cases hx : p x with
    | true => simp [List.find?, hx] at h
    | false =>
      rw [List.find?] at h
      rw [hx] at h
      rw [List.cons_append, List.find?, hx]
      exact ih h

/-- The `order by ... limit 1` scan returns an element of the candidate list. -/
theorem foldl_choice_mem (as : List Node) (acc : Node) :
    as.foldl (fun best n => if load_factor n < load_factor best then n else best) acc
      ∈ acc :: as := by
  induction as generalizing acc with
  | nil => simp
  | cons b bs ih =>
    rw [List.foldl_cons]
    have h1 := ih (if load_factor b < load_factor acc then b else acc)
    rw [List.mem_cons] at h1
    rcases h1 with h1 | h1
    · rw [h1]
      split
      · exact List.mem_cons_of_mem _ (List.mem_cons_self _ _)
      · exact List.mem_cons_self _ _
    · exact List.mem_cons_of_mem _ (List.mem_cons_of_mem _ h1)

/-- A row produced by `selectBest` belongs to the list it scanned. -/
theorem selectBest_mem {l : List Node} {x : Node} (h : selectBest l = some x) :
    x ∈ l := by
  cases l with
  | nil => simp [selectBest] at h
  | cons a as =>
    have hm := foldl_choice_mem as a
    simp only [selectBest, Option.some.injEq] at h
    exact h ▸ hm

/-- `get_node` on a pair whose `_GET` query returns a row: both branches surface the
row's uid and node; the ToS slot depends on the stored flag being exactly `1`. -/
theorem get_node_found (db : DB) (email service : String) (w : UserNode)
    (hf : db.user_nodes.find? (fun u => u.email == email && u.service == service)
      = some w) :
    get_node db email service = (some w.uid, some w.node,
      if w.tos_signed == 1 then get_metadata db service "terms-of-service" else none) := by
  simp only [get_node, hf]
  split <;> rename_i hts <;> simp [hts]

/-- `get_node` on a pair whose `_GET` query returns no row. -/
theorem get_node_none (db : DB) (email service : String)
    (hf : db.user_nodes.find? (fun u => u.email == email && u.service == service)
      = none) :
    get_node db email service
      = (none, none, get_metadata db service "terms-of-service") := by
  simp [get_node, hf]

/-- `allocate_node` on a pair that already has a uid raises the already-assigned
`BackendError` without touching the state. -/
theorem allocate_node_already (db : DB) (email service : String)
    (h : (get_node db email service).1 ≠ none) :
    allocate_node db email service = .error (.backendError "Node already assigned") := by
  rcases hg : get_node db email service with ⟨u, nd, t⟩
  rw [hg] at h
  cases u with
  | none => exact absurd rfl h
  | some v => simp [allocate_node, hg]

/-- Successful-run introduction for `allocate_node`: with no existing row and a row
produced by the selection query, the method claims the slot, inserts the assignment
with `tos_signed = 1` and returns the fresh uid with the selected address. -/
theorem allocate_node_ok_intro (db : DB) (email service : String) (one : Node)
    (hno : db.user_nodes.find? (fun w => w.email == email && w.service == service)
      = none)
    (hsel : selectBest (db.nodes.filter (eligible service)) = some one) :
    allocate_node db email service = .ok (db.nextUid, one.node,
      { claim_slot_update db service one.node with
          user_nodes := db.user_nodes ++ [⟨service, email, one.node, db.nextUid, 1⟩]
          nextUid := db.nextUid + 1 }) := by
  have hg := get_node_none db email service hno
  simp only [allocate_node, hg, get_best_node, hsel]
  rfl

/-- Successful-run elimination for `allocate_node`: a run that returned `.ok`
determines the absence of a prior row, the selected node and the final state. -/
theorem allocate_node_ok_elim (db db1 : DB) (email service : String)
    (uid : Nat) (addr : String)
    (h : allocate_node db email service = .ok (uid, addr, db1)) :
    db.user_nodes.find? (fun w => w.email == email && w.service == service) = none ∧
    ∃ one, selectBest (db.nodes.filter (eligible service)) = some one ∧
      addr = one.node ∧ uid = db.nextUid ∧
      db1 = { claim_slot_update db service one.node with
          user_nodes := db.user_nodes ++ [⟨service, email, one.node, db.nextUid, 1⟩]
          nextUid := db.nextUid + 1 } := by
  cases hf : db.user_nodes.find? (fun w => w.email == email && w.service == service) with
  | some w =>
    have hg := get_node_found db email service w hf
    simp [allocate_node, hg] at h
  | none =>
    have hg := get_node_none db email service hf
    cases hsel : selectBest (db.nodes.filter (eligible service)) with
    | none =>
      simp only [allocate_node, hg, get_best_node, hsel] at h
      split at h <;> simp at h
    | some one =>
      have hok := allocate_node_ok_intro db email service one hf hsel
      rw [hok] at h
      simp only [Except.ok.injEq, Prod.mk.injEq] at h
      obtain ⟨h1, h2, h3⟩ := h
      subst h1
      subst h2
      subst h3
      exact ⟨rfl, one, rfl, rfl, rfl, rfl⟩

/-- The metadata UPDATE leaves `find?` for an absent key failing: mapping the update
function over a table with no matching row yields a table with no matching row. -/
theorem find?_map_update_none (l : List MetadataRow) (s name value : String)
    (h : l.any (fun r => r.service == s && r.name == name) = false) :
    (l.map (fun r =>
        if r.name == name && r.service == s then { r with value := value }
        else r)).find? (fun r => r.service == s && r.name == name) = none := by
  induction l with
  | nil => rfl
  | cons x xs ih =>
    simp only [List.any_cons, Bool.or_eq_false_iff] at h
    have h1 : (x.name == name && x.service == s) = false := by
      rw [Bool.and_comm]; exact h.1
    rw [List.map_cons, List.find?]
    rw [h1]
    simp only [Bool.false_eq_true, if_false, h.1]
    exact ih h.2

/-! Claim theorems. -/

/-- C1, counterexample: the slot-claim UPDATE of `get_best_node` is not the conditional
write the claim describes.  At a concrete registry whose only `("s1", "n1")` row is
ineligible (`available = 0`), the update still changes the row instead of leaving it
unchanged. -/
theorem C1_counterexample :
    eligible "s1" c1_node = false ∧ c1_node ∈ c1_db.nodes ∧
      claim_slot_update c1_db "s1" "n1" ≠ c1_db := by decide

/-- C1, amended: the slot-claim UPDATE inside `get_best_node` matches on
`(service, node)` alone and performs no eligibility re-validation at write time: a row
of the service carrying the written address is decremented/incremented even when it no
longer satisfies `available > 0 ∧ current_load < capacity ∧ ¬downed`. -/
theorem C1_claim_update_unconditional (db : DB) (service : String) (n : Node)
    (hmem : n ∈ db.nodes) (hsvc : n.service = service)
    (_hineligible : eligible service n = false) :
    { n with available := n.available - 1, current_load := n.current_load + 1 }
      ∈ (claim_slot_update db service n.node).nodes := by
  have hfn : (fun m : Node =>
      if m.service == service && m.node == n.node then
        { m with available := m.available - 1, current_load := m.current_load + 1 }
      else m) n
      = { n with available := n.available - 1, current_load := n.current_load + 1 } := by
    simp [hsvc]
  simp only [claim_slot_update]
  exact hfn ▸ List.mem_map_of_mem _ hmem

/-- C1, witness for the amended theorem at the concrete ineligible node. -/
theorem C1_claim_update_unconditional_witness :
    { c1_node with
        available := c1_node.available - 1
        current_load := c1_node.current_load + 1 }
      ∈ (claim_slot_update c1_db "s1" c1_node.node).nodes :=
  C1_claim_update_unconditional c1_db "s1" c1_node (by decide) (by decide) (by decide)

/-- C2: at the failing input, `set_tos` stores flag value `0` for every user of the
service, and `get_node` reads a stored flag other than `1` as "ToS signed", so the
previously-signed user `u@x` gets the signed branch `(uid, node, none)` — not the
unsigned branch with the new URL the claim requires — even though the metadata row now
holds the new URL. -/
theorem C2_set_tos_returns_signed_branch :
    get_node (set_tos c2_db "s1" "http://new") "u@x" "s1" = (some 1, some "n1", none) ∧
      get_metadata (set_tos c2_db "s1" "http://new") "s1" "terms-of-service"
        = some "http://new" := by decide

/-- C6, counterexample: `set_metadata` on the existing key `("s1", "x")` surfaces the
storage engine's raw constraint-violation error, not a facade `BackendError`:
`_safe_execute` catches only operational and timeout errors. -/
theorem C6_counterexample :
    set_metadata c6_db "s1" "x" "3"
        = .error (.integrityError "columns service, name are not unique") ∧
      isBackendError (set_metadata c6_db "s1" "x" "3") = false := by decide

/-- C6, amended: `set_metadata` on an existing `(service, name)` key fails with the raw
storage-engine integrity error; the failure is never converted to the facade's
`BackendError` taxonomy type, because `_safe_execute` wraps only operational/timeout
failures. -/
theorem C6_duplicate_set_raises_raw_error (db : DB) (service name value : String)
    (h : db.metadata.any (fun r => r.service == service && r.name == name) = true) :
    set_metadata db service name value
        = .error (.integrityError "columns service, name are not unique") ∧
      isBackendError (set_metadata db service name value) = false := by
  simp [set_metadata, metadata_insert, h, safe_execute, isBackendError]

/-- C6, witness for the amended theorem at the concrete duplicated key. -/
theorem C6_duplicate_set_raises_raw_error_witness :
    set_metadata c6_db "s1" "x" "3"
        = .error (.integrityError "columns service, name are not unique") ∧
      isBackendError (set_metadata c6_db "s1" "x" "3") = false :=
  C6_duplicate_set_raises_raw_error c6_db "s1" "x" "3" (by decide)

/-- C8: when no row matches `(service, name)`, the UPDATE of `update_metadata` touches
nothing: the call succeeds (it is a total function of the state) and returns the state
with every metadata row — indeed every table — unchanged. -/
theorem C8_update_metadata_noop (db : DB) (service name value : String)
    (h : db.metadata.any (fun r => r.name == name && r.service == service) = false) :
    update_metadata db service name value = db := by
  have hmap : ∀ l : List MetadataRow,
      l.any (fun r => r.name == name && r.service == service) = false →
      l.map (fun r =>
        if r.name == name && r.service == service then { r with value := value }
        else r) = l := by
    intro l
    induction l with
    | nil => intro _; rfl
    | cons x xs ih =>
      intro hl
      simp only [List.any_cons, Bool.or_eq_false_iff] at hl
      rw [List.map_cons, ih hl.2]
      simp [hl.1]
  unfold update_metadata
  rw [hmap db.metadata h]

/-- C8, witness: updating the absent key `("s1", "x")` leaves the concrete store
untouched. -/
theorem C8_update_metadata_noop_witness :
    update_metadata c8_db "s1" "x" "2" = c8_db :=
  C8_update_metadata_noop c8_db "s1" "x" "2" (by decide)

/-- C3: after a successful `allocate_node(email, service)`, a second call for the same
pair fails with `BackendError("Node already assigned")` — raised before any insert, so
no second assignment row can be created (an error run returns no new state) — and
`get_node` still reports the uid and node the first call produced. -/
theorem C3_second_allocation_fails (db db1 : DB) (email service : String)
    (uid : Nat) (addr : String)
    (h : allocate_node db email service = .ok (uid, addr, db1)) :
    allocate_node db1 email service = .error (.backendError "Node already assigned") ∧
      (get_node db1 email service).1 = some uid ∧
      (get_node db1 email service).2.1 = some addr := by
  obtain ⟨hfind, one, hsel, haddr, huid, hdb1⟩ :=
    allocate_node_ok_elim db db1 email service uid addr h
  subst haddr
  subst huid
  subst hdb1
  have hf2 : ({ claim_slot_update db service one.node with
      user_nodes := db.user_nodes ++ [⟨service, email, one.node, db.nextUid, 1⟩]
      nextUid := db.nextUid + 1 } : DB).user_nodes.find?
        (fun w => w.email == email && w.service == service)
      = some ⟨service, email, one.node, db.nextUid, 1⟩ :=
    find?_append_of_none _ _ _ hfind (by simp)
  have hg := get_node_found _ email service _ hf2
  refine ⟨allocate_node_already _ email service ?_, ?_, ?_⟩
  · rw [hg]; simp
  · rw [hg]
  · rw [hg]

/-- C3, witness: the theorem applied to the successful first allocation on the
concrete one-node registry. -/
theorem C3_second_allocation_fails_witness :
    allocate_node c3_db1 "u@x" "s1" = .error (.backendError "Node already assigned") ∧
      (get_node c3_db1 "u@x" "s1").1 = some 1 ∧
      (get_node c3_db1 "u@x" "s1").2.1 = some "n1" :=
  C3_second_allocation_fails c3_db c3_db1 "u@x" "s1" 1 "n1" (by decide)

/-- C4: a node at exactly full load (`current_load = capacity`) fails the eligibility
filter of `get_best_node`, so a successful run never returns its address, and the
slot-claim UPDATE leaves its row untouched — under the table-identity invariant that
`(service, node)` keys are distinct. -/
theorem C4_full_node_never_selected (db db1 : DB) (service : String) (N : Node)
    (addr : String)
    (hmem : N ∈ db.nodes) (hsvc : N.service = service)
    (hfull : N.current_load = N.capacity)
    (hkeys : (db.nodes.map (fun n => (n.service, n.node))).Nodup)
    (hrun : get_best_node db service = .ok (addr, db1)) :
    addr ≠ N.node ∧ N ∈ db1.nodes := by
  cases hsel : selectBest (db.nodes.filter (eligible service)) with
  | none =>
    simp only [get_best_node, hsel] at hrun
    exact Except.noConfusion hrun
  | some one =>
    simp only [get_best_node, hsel, Except.ok.injEq, Prod.mk.injEq] at hrun
    obtain ⟨haddr, hdb1⟩ := hrun
    have honemem := selectBest_mem hsel
    rw [List.mem_filter] at honemem
    obtain ⟨hmem1, helig1⟩ := honemem
    simp only [eligible, Bool.and_eq_true, beq_iff_eq, decide_eq_true_eq] at helig1
    obtain ⟨⟨⟨hserv1, hav1⟩, hlt1⟩, hdown1⟩ := helig1
    have hne : one ≠ N := by
      intro hEq
      rw [hEq] at hlt1
      rw [hfull] at hlt1
      exact lt_irrefl _ hlt1
    have hnodes : one.node ≠ N.node := by
      intro hnEq
      apply hne
      exact List.inj_on_of_nodup_map hkeys hmem1 hmem (by rw [hserv1, hnEq, hsvc])
    refine ⟨?_, ?_⟩
    · rw [← haddr]
      exact hnodes
    · rw [← hdb1]
      have hb : (N.node == one.node) = false := beq_eq_false_iff_ne.mpr (Ne.symm hnodes)
      have hfix : (fun m : Node =>
          if m.service == service && m.node == one.node then
            { m with available := m.available - 1, current_load := m.current_load + 1 }
          else m) N = N := by
        simp [hb]
      simp only [claim_slot_update]
      exact hfix ▸ List.mem_map_of_mem _ hmem

/-- C4, witness: with a full node and an eligible node registered for `s1`, the run
returns the eligible node's address and keeps the full row intact. -/
theorem C4_full_node_never_selected_witness :
    "ng" ≠ c4_full.node ∧
      c4_full ∈ (⟨[], [c4_full, ⟨"s1", "ng", 2, 2, 5, 0, 0⟩], [], 1⟩ : DB).nodes :=
  C4_full_node_never_selected c4_db ⟨[], [c4_full, ⟨"s1", "ng", 2, 2, 5, 0, 0⟩], [], 1⟩
    "s1" c4_full "ng" (by decide) (by decide) (by decide) (by decide) (by decide)

/-- C5: in the spec scenario (service `sync`, A at load 2 of 10, B at load 8 of 10,
user unassigned), `allocate_node` selects A — the lower `current_load / capacity`
ratio — returns A's address with the fresh uid, leaves A at load 3 with `available`
decremented by one, and leaves B's row completely unchanged. -/
theorem C5_scenario_selects_lower_ratio :
    allocate_node c5_db "u@x" "sync" =
      .ok (1, "https://a",
        ⟨[⟨"sync", "u@x", "https://a", 1, 1⟩],
          [⟨"sync", "https://a", 4, 3, 10, 0, 0⟩, c5_nodeB], [], 2⟩) := by
  have h : ¬ (load_factor ⟨"sync", "https://b", 5, 8, 10, 0, 0⟩ <
      load_factor ⟨"sync", "https://a", 5, 2, 10, 0, 0⟩) := by
    simp [load_factor]
    norm_num
  simp [allocate_node, get_node, get_metadata, c5_db, c5_nodeA, c5_nodeB,
    get_best_node, selectBest, claim_slot_update, eligible, h]

/-- C7: metadata round-trip.  From a state with no `(s, "x")` row, `set_metadata`
inserts `"1"`, `update_metadata` rewrites the row to `"2"`, and `get_metadata`
returns `"2"`. -/
theorem C7_metadata_roundtrip (db : DB) (s : String)
    (h : db.metadata.any (fun r => r.service == s && r.name == "x") = false) :
    ∃ db1, set_metadata db s "x" "1" = .ok db1 ∧
      get_metadata (update_metadata db1 s "x" "2") s "x" = some "2" := by
  refine ⟨{ db with metadata := db.metadata ++ [⟨s, "x", "1"⟩] }, ?_, ?_⟩
  · simp [set_metadata, metadata_insert, h, safe_execute]
  · have hrow : (([⟨s, "x", "1"⟩] : List MetadataRow).map (fun r =>
        if r.name == "x" && r.service == s then { r with value := "2" } else r))
        = [⟨s, "x", "2"⟩] := by simp
    have hstep : ((db.metadata ++ [(⟨s, "x", "1"⟩ : MetadataRow)]).map (fun r =>
        if r.name == "x" && r.service == s then { r with value := "2" } else r)).find?
        (fun r => r.service == s && r.name == "x") = some ⟨s, "x", "2"⟩ := by
      rw [List.map_append, hrow]
      exact find?_append_of_none _ _ _ (find?_map_update_none db.metadata s "x" "2" h)
        (by simp)
    simp only [update_metadata, get_metadata]
    rw [hstep]
    rfl

/-- C7, witness: the round-trip on the empty store. -/
theorem C7_metadata_roundtrip_witness :
    ∃ db1, set_metadata c7_db "s1" "x" "1" = .ok db1 ∧
      get_metadata (update_metadata db1 "s1" "x" "2") "s1" "x" = some "2" :=
  C7_metadata_roundtrip c7_db "s1" (by decide)

/-- C9: a fresh allocation (no prior row, at least one eligible node) stores the flag
literal `1` in the inserted row, and since `get_node` reads a stored `1` as "ToS not
signed" (anything else, such as `0`, as signed), the subsequent `get_node` surfaces
the service's terms-of-service metadata value alongside the new uid and node. -/
theorem C9_fresh_allocation_is_unsigned (db : DB) (email service : String)
    (hno : db.user_nodes.find? (fun w => w.email == email && w.service == service)
      = none)
    (helig : db.nodes.filter (eligible service) ≠ []) :
    ∃ uid addr db1, allocate_node db email service = .ok (uid, addr, db1) ∧
      (⟨service, email, addr, uid, 1⟩ : UserNode) ∈ db1.user_nodes ∧
      get_node db1 email service
        = (some uid, some addr, get_metadata db1 service "terms-of-service") := by
  obtain ⟨one, hsel⟩ : ∃ one, selectBest (db.nodes.filter (eligible service))
      = some one := by
    cases hl : db.nodes.filter (eligible service) with
    | nil => exact absurd hl helig
    | cons x xs => exact ⟨_, rfl⟩
  refine ⟨db.nextUid, one.node, _,
    allocate_node_ok_intro db email service one hno hsel, ?_, ?_⟩
  · simp
  · have hf2 : ({ claim_slot_update db service one.node with
        user_nodes := db.user_nodes ++ [⟨service, email, one.node, db.nextUid, 1⟩]
        nextUid := db.nextUid + 1 } : DB).user_nodes.find?
          (fun w => w.email == email && w.service == service)
        = some ⟨service, email, one.node, db.nextUid, 1⟩ :=
      find?_append_of_none _ _ _ hno (by simp)
    have hg := get_node_found _ email service _ hf2
    rw [hg]
    simp

/-- C9, witness: a fresh allocation on a registry with one eligible `s2` node and a
terms-of-service row. -/
theorem C9_fresh_allocation_is_unsigned_witness :
    ∃ uid addr db1, allocate_node c9_db "a@b" "s2" = .ok (uid, addr, db1) ∧
      (⟨"s2", "a@b", addr, uid, 1⟩ : UserNode) ∈ db1.user_nodes ∧
      get_node db1 "a@b" "s2"
        = (some uid, some addr, get_metadata db1 "s2" "terms-of-service") :=
  C9_fresh_allocation_is_unsigned c9_db "a@b" "s2" (by decide) (by decide)

/-- C10: the three failure conditions raise one and the same exception type.  With no
eligible node, `get_best_node` raises `BackendError('unable to get a node')`; on an
already-assigned pair, `allocate_node` raises `BackendError('Node already assigned')`;
and a connectivity or timeout failure of the engine is re-raised by `_safe_execute` as
`BackendError(str(exc))`.  They differ only in the message string. -/
theorem C10_failures_share_backenderror (db db2 : DB) (email service : String)
    (out : EngineOutcome DB) (m : String)
    (h1 : db.nodes.filter (eligible service) = [])
    (h2 : (get_node db2 email service).1 ≠ none)
    (h3 : out = .operationalError m ∨ out = .timeoutError m) :
    get_best_node db service = .error (.backendError "unable to get a node") ∧
      allocate_node db2 email service = .error (.backendError "Node already assigned") ∧
      safe_execute out = .error (.backendError m) := by
  refine ⟨?_, ?_, ?_⟩
  · simp [get_best_node, h1, selectBest]
  · rcases hg : get_node db2 email service with ⟨uid, node, tos⟩
    rw [hg] at h2
    cases uid with
    | none => exact absurd rfl h2
    | some u => simp [allocate_node, hg]
  · rcases h3 with h3 | h3 <;> rw [h3] <;> rfl

/-- C10, witness: a nodeless registry, an already-assigned pair, and an operational
engine failure all produce `backendError` values. -/
theorem C10_failures_share_backenderror_witness :
    get_best_node c10_db "s3" = .error (.backendError "unable to get a node") ∧
      allocate_node c10_db2 "c@d" "s3" = .error (.backendError "Node already assigned") ∧
      safe_execute (EngineOutcome.operationalError (α := DB) "db gone")
        = .error (.backendError "db gone") :=
  C10_failures_share_backenderror c10_db c10_db2 "c@d" "s3"
    (.operationalError "db gone") "db gone" (by decide) (by decide) (Or.inl rfl)

end Wimms
